import Mathlib

/-!
Verification of the breach rendering subsystem of shipshape
(`pkg/breach/breachtemplate.go` and `pkg/breach/types.go`).

Go strings are modelled at character granularity (Lean `String`), which
coincides with Go's byte-level operations on the ASCII inputs exercised
here.  Go maps with unique keys are modelled as association lists.
Failure of a Go expression (a runtime panic) is modelled as `Option.none`
or `Except.error`; the remediation subsystem is out of scope and omitted.
-/

/-- Modelled from the spec: the concrete breach variant structs of
`pkg/breach` (file `breach.go`, not part of the provided sources; only the
`Breach` interface in `types.go` and the struct literals in
`breachtemplate.go` are).  A `ValueBreach` carries a single offending value
with an optional label plus the common metadata. -/
structure ValueBreach where
  checkType : String := ""
  checkName : String := ""
  severity : String := ""
  valueLabel : String := ""
  value : String := ""
deriving DecidableEq

/-- Modelled from the spec: an offending value associated with a key, plus
an optional expected value. -/
structure KeyValueBreach where
  checkType : String := ""
  checkName : String := ""
  severity : String := ""
  keyLabel : String := ""
  key : String := ""
  valueLabel : String := ""
  value : String := ""
  expectedValue : String := ""
deriving DecidableEq

/-- Modelled from the spec: a key associated with multiple offending
values. -/
structure KeyValuesBreach where
  checkType : String := ""
  checkName : String := ""
  severity : String := ""
  keyLabel : String := ""
  key : String := ""
  valueLabel : String := ""
  values : List String := []
deriving DecidableEq

/-- The polymorphic `Breach` capability set as a tagged sum over the three
variants (spec section 3; Go interface `Breach` in `types.go`). -/
inductive Breach where
  | value (vb : ValueBreach)
  | keyValue (kvb : KeyValueBreach)
  | keyValues (kvb : KeyValuesBreach)
deriving DecidableEq

/-- Modelled from the spec: the `BreachType` discriminator constant of the
`ValueBreach` variant. -/
def BreachTypeValue : String := "value"

/-- Modelled from the spec: the `BreachType` discriminator constant of the
`KeyValueBreach` variant. -/
def BreachTypeKeyValue : String := "key-value"

/-- Modelled from the spec: the `BreachType` discriminator constant of the
`KeyValuesBreach` variant. -/
def BreachTypeKeyValues : String := "key-values"

/-- `GetType` of the `Breach` interface: the discriminator tag always
matches the runtime variant (spec section 3 invariant). -/
def Breach.getType : Breach → String
  | .value _ => BreachTypeValue
  | .keyValue _ => BreachTypeKeyValue
  | .keyValues _ => BreachTypeKeyValues

/-- `GetCheckName` of the `Breach` interface. -/
def Breach.getCheckName : Breach → String
  | .value vb => vb.checkName
  | .keyValue kvb => kvb.checkName
  | .keyValues kvb => kvb.checkName

/-- `GetCheckType` of the `Breach` interface. -/
def Breach.getCheckType : Breach → String
  | .value vb => vb.checkType
  | .keyValue kvb => kvb.checkType
  | .keyValues kvb => kvb.checkType

/-- `GetSeverity` of the `Breach` interface. -/
def Breach.getSeverity : Breach → String
  | .value vb => vb.severity
  | .keyValue kvb => kvb.severity
  | .keyValues kvb => kvb.severity

/-- Modelled from the spec: helper `BreachGetKeyLabel` of `pkg/breach`
(missing `breach.go`); returns the variant's key label, or the empty
string for the variant without one. -/
def BreachGetKeyLabel : Breach → String
  | .value _ => ""
  | .keyValue kvb => kvb.keyLabel
  | .keyValues kvb => kvb.keyLabel

/-- Modelled from the spec: helper `BreachGetKey` of `pkg/breach`. -/
def BreachGetKey : Breach → String
  | .value _ => ""
  | .keyValue kvb => kvb.key
  | .keyValues kvb => kvb.key

/-- Modelled from the spec: helper `BreachGetValueLabel` of `pkg/breach`. -/
def BreachGetValueLabel : Breach → String
  | .value vb => vb.valueLabel
  | .keyValue kvb => kvb.valueLabel
  | .keyValues kvb => kvb.valueLabel

/-- Modelled from the spec: helper `BreachGetValue` of `pkg/breach`; the
multi-valued variant has no single value field. -/
def BreachGetValue : Breach → String
  | .value vb => vb.value
  | .keyValue kvb => kvb.value
  | .keyValues _ => ""

/-- `BreachTemplate` configuration object (`types.go`): legacy per-field
template sources plus the enhanced `template`/`templates`/`context`
fields.  The Go field `Type` is rendered as `type_`. -/
structure BreachTemplate where
  type_ : String := ""
  keyLabel : String := ""
  key : String := ""
  valueLabel : String := ""
  value : String := ""
  template : String := ""
  templates : List (String × String) := []
  context : List (String × String) := []
deriving DecidableEq

/-- `TemplateContext` (`types.go`): the per-evaluation context object. -/
structure TemplateContext where
  breach : Breach
  outputFormat : String := ""
  severity : String := ""
  checkName : String := ""
  checkType : String := ""
  context : List (String × String) := []
deriving DecidableEq

/-! ## Function library helpers (`TemplateFuncs` and helpers,
`breachtemplate.go` lines 155-473) -/

/-- The Go slice expression `s[:n]`: `none` models the runtime panic
`slice bounds out of range` raised when `n` is negative or exceeds the
length. -/
def goSliceTo (s : String) (n : Int) : Option String :=
  if 0 ≤ n ∧ n ≤ (s.length : Int) then some (s.take n.toNat) else none

/-- The `truncate` template function (`breachtemplate.go` lines 186-194).
`none` models a panic of the underlying Go code. -/
def truncate (length : Int) (s : String) : Option String :=
  if (s.length : Int) ≤ length then some s
  else if length ≤ 3 then goSliceTo s length
  else (goSliceTo s (length - 3)).map (fun p => p ++ "...")

/-- The `ellipsis` template function (`breachtemplate.go` lines 195-200). -/
def ellipsis (length : Int) (s : String) : Option String :=
  if (s.length : Int) ≤ length then some s
  else (goSliceTo s length).map (fun p => p ++ "…")

/-- The `div` template function (lines 362-365): Go integer division
(truncated towards zero), guarded to return 0 on a zero divisor. -/
def goDiv (a b : Int) : Int :=
  if b = 0 then 0 else Int.tdiv a b

/-- The `mod` template function (lines 366-369). -/
def goMod (a b : Int) : Int :=
  if b = 0 then 0 else Int.tmod a b

/-- The `pluralize` template function (lines 209-214). -/
def pluralize (count : Int) (singular plural : String) : String :=
  if count = 1 then singular else plural

/-- The division loop of `humanizeNumber` (lines 390-393), with the
iteration bound `suffixIndex < len(suffixes)-1 = 4` made explicit as fuel:
the loop body runs at most four times.  The running float `value`, which
always equals `n / 1000^suffixIndex` exactly, is represented by its exact
denominator `den = 1000^suffixIndex`; the loop condition `value >= 1000`
becomes `1000 * den <= n`.  The returned pair is `(den, suffixIndex)`. -/
def humanizeLoop (n : Int) : Nat → Int → Nat → Int × Nat
  | 0, den, idx => (den, idx)
  | fuel + 1, den, idx =>
    if 1000 * den ≤ n ∧ idx < 4 then humanizeLoop n fuel (den * 1000) (idx + 1)
    else (den, idx)

/-- Go's `fmt.Sprintf("%.1f", value)` for the positive exact value
`n / den`: one decimal digit, rounding to nearest with ties to even.
`Int.tdiv` on the positive operands here is floor division. -/
def formatOneDecimal (n den : Int) : String :=
  let fl := Int.tdiv (10 * n) den
  let rem := 10 * n - fl * den
  let n10 := if 2 * rem < den then fl
    else if den < 2 * rem then fl + 1
    else if Int.tmod fl 2 = 0 then fl else fl + 1
  toString (Int.tdiv n10 10) ++ "." ++ toString (Int.tmod n10 10)

/-- `humanizeNumber` (lines 381-399): numbers below 1000 (including all
negative numbers) are returned in plain decimal form; otherwise the value
is repeatedly divided by 1000 and suffixed, printed with one decimal digit
when the scaled value is non-integral (`%.1f`) and as an integer when it
is exact (`%.0f`). -/
def humanizeNumber (n : Int) : String :=
  if n < 1000 then toString n
  else
    let r := humanizeLoop n 4 1 0
    let sfx := List.getD ["", "K", "M", "B", "T"] r.2 ""
    if Int.tmod n r.1 = 0 then toString (Int.tdiv n r.1) ++ sfx
    else formatOneDecimal n r.1 ++ sfx

/-- `strings.ToUpper` (character-wise ASCII case mapping). -/
def goUpper (s : String) : String :=
  String.mk (s.data.map Char.toUpper)

/-- `strings.ToLower`. -/
def goLower (s : String) : String :=
  String.mk (s.data.map Char.toLower)

/-- Capitalization of one word in `humanizeString` (lines 408-412):
first character upper-cased, remainder lower-cased. -/
def capitalizeWord (w : String) : String :=
  match w.data with
  | [] => ""
  | c :: rest => String.mk (c.toUpper :: rest.map Char.toLower)

/-- `strings.Fields` restricted to the space separators produced by
`humanizeString`: split on runs of spaces, dropping empty fields.  `acc`
accumulates the current field in reverse. -/
def goFieldsAux : List Char → List Char → List String
  | [], acc => if acc = [] then [] else [String.mk acc.reverse]
  | c :: rest, acc =>
    if c = ' ' then
      if acc = [] then goFieldsAux rest []
      else String.mk acc.reverse :: goFieldsAux rest []
    else goFieldsAux rest (c :: acc)

/-- `strings.Fields` over the characters of `s`. -/
def goFields (s : String) : List String :=
  goFieldsAux s.data []

/-- Joining a word list with a separator (`strings.Join`). -/
def joinWith (sep : String) : List String → String
  | [] => ""
  | [w] => w
  | w :: rest => w ++ sep ++ joinWith sep rest

/-- `humanizeString` (lines 401-414): underscores and hyphens become
spaces (two `strings.ReplaceAll` calls), each word is capitalized, and
the words are joined by single spaces. -/
def humanizeString (s : String) : String :=
  let s1 := String.mk (s.data.map (fun c => if c = '_' ∨ c = '-' then ' ' else c))
  joinWith " " ((goFields s1).map capitalizeWord)

/-! ## Template engine

Modelled from the spec: the template engine is Go's `text/template`
library (external to the repository), restricted to the constructs the
spec's evaluator contract requires and this development exercises:
literal text, `\x7b\x7b pipeline \x7d\x7d` actions whose commands are
field paths over the context (`.Breach.Value`, `.Severity`, ...), string
and integer literals, and calls to registered functions, composed with
the `|` pipe.  Compile failures and execution failures are `Except.error`
values.  The ambient clock read by the `now` function is an explicit
`time : Nat` parameter. -/

/-- The opening brace character, `\x7b`. -/
def braceOpen : Char := Char.ofNat 123

/-- The closing brace character, `\x7d`. -/
def braceClose : Char := Char.ofNat 125

/-- The double-quote character. -/
def quoteChar : Char := Char.ofNat 34

/-- A value flowing through a template pipeline. -/
inductive TValue where
  | str (s : String)
  | int (n : Int)
  | strs (xs : List String)
  | time (t : Nat)
deriving DecidableEq

/-- An argument expression inside an action. -/
inductive TExpr where
  | strLit (s : String)
  | intLit (n : Int)
  | path (fields : List String)
deriving DecidableEq

/-- One command of a pipeline: a bare expression or a function call. -/
inductive TCmd where
  | expr (e : TExpr)
  | call (fn : String) (args : List TExpr)
deriving DecidableEq

/-- A parsed template node: literal text or an action holding a
pipeline of commands. -/
inductive TNode where
  | text (s : String)
  | action (cmds : List TCmd)
deriving DecidableEq

/-- Scan literal text up to the next `\x7b\x7b` delimiter; returns the
text and, when a delimiter was found, the remainder after it. -/
def splitText : List Char → List Char × Option (List Char)
  | [] => ([], none)
  | [c] => ([c], none)
  | c :: c2 :: rest =>
    if c = braceOpen ∧ c2 = braceOpen then ([], some rest)
    else
      let r := splitText (c2 :: rest)
      (c :: r.1, r.2)

/-- Scan an action's source up to the closing `\x7d\x7d`; `none` models
Go's `unclosed action` parse error. -/
def splitAction : List Char → Option (List Char × List Char)
  | [] => none
  | [_] => none
  | c :: c2 :: rest =>
    if c = braceClose ∧ c2 = braceClose then some ([], rest)
    else (splitAction (c2 :: rest)).map (fun p => (c :: p.1, p.2))

/-- A lexical token of an action. -/
inductive Tok where
  | pipe
  | ident (s : String)
  | path (fields : List String)
  | str (s : String)
  | num (n : Int)
deriving DecidableEq

/-- Identifier characters (ASCII letters, digits, underscore). -/
def isIdentChar (c : Char) : Bool :=
  c.isAlpha || c.isDigit || c = '_'

/-- Read a maximal identifier. -/
def readIdent : List Char → String × List Char
  | [] => ("", [])
  | c :: rest =>
    if isIdentChar c then
      let r := readIdent rest
      (String.mk (c :: r.1.data), r.2)
    else ("", c :: rest)

/-- Read a dotted field path after an initial dot. -/
def readPath : Nat → List Char → Except String (List String × List Char)
  | 0, _ => Except.error "field path too long"
  | fuel + 1, cs =>
    let r := readIdent cs
    if r.1 = "" then Except.error "bad character in field path"
    else
      match r.2 with
      | '.' :: rest2 => (readPath fuel rest2).map (fun p => (r.1 :: p.1, p.2))
      | other => Except.ok ([r.1], other)

/-- Read a maximal run of decimal digits. -/
def readDigits : List Char → List Char × List Char
  | [] => ([], [])
  | c :: rest =>
    if c.isDigit then
      let r := readDigits rest
      (c :: r.1, r.2)
    else ([], c :: rest)

/-- Decimal digits to a natural number. -/
def digitsToNat (ds : List Char) : Nat :=
  ds.foldl (fun a c => a * 10 + (c.toNat - 48)) 0

/-- Read a quoted string literal body (no escape sequences); `none`
models Go's `unterminated quoted string` parse error. -/
def readStrLit : List Char → Option (String × List Char)
  | [] => none
  | c :: rest =>
    if c = quoteChar then some ("", rest)
    else (readStrLit rest).map (fun p => (String.mk (c :: p.1.data), p.2))

/-- Tokenize an action's source. -/
def tokenizeAction : Nat → List Char → Except String (List Tok)
  | 0, _ => Except.error "action too long"
  | _, [] => Except.ok []
  | fuel + 1, c :: rest =>
    if c = ' ' ∨ c = '\n' ∨ c = '\t' ∨ c = '\r' then tokenizeAction fuel rest
    else if c = '|' then (tokenizeAction fuel rest).map (fun ts => Tok.pipe :: ts)
    else if c = quoteChar then
      match readStrLit rest with
      | none => Except.error "unterminated quoted string"
      | some (s, r) => (tokenizeAction fuel r).map (fun ts => Tok.str s :: ts)
    else if c = '.' then
      match readPath (fuel + 1) rest with
      | Except.error e => Except.error e
      | Except.ok (ps, r) => (tokenizeAction fuel r).map (fun ts => Tok.path ps :: ts)
    else if c = '-' then
      let r := readDigits rest
      if r.1 = [] then Except.error "unrecognized character in action"
      else (tokenizeAction fuel r.2).map (fun ts => Tok.num (-(digitsToNat r.1 : Int)) :: ts)
    else if c.isDigit then
      let r := readDigits (c :: rest)
      (tokenizeAction fuel r.2).map (fun ts => Tok.num (digitsToNat r.1) :: ts)
    else
      let r := readIdent (c :: rest)
      if r.1 = "" then Except.error "unrecognized character in action"
      else (tokenizeAction fuel r.2).map (fun ts => Tok.ident r.1 :: ts)

/-- Split a token list into pipe-separated command groups. -/
def splitPipes : List Tok → List (List Tok)
  | [] => [[]]
  | Tok.pipe :: rest => [] :: splitPipes rest
  | t :: rest =>
    match splitPipes rest with
    | [] => [[t]]
    | g :: gs => (t :: g) :: gs

/-- The names registered in the modelled function registry
(`TemplateFuncs`); Go rejects a call to an unregistered function at
parse time. -/
def registryNames : List String :=
  ["upper", "lower", "truncate", "ellipsis", "div", "mod", "humanize",
   "pluralize", "now", "date"]

/-- Parse one argument token. -/
def parseArg : Tok → Except String TExpr
  | Tok.path p => Except.ok (TExpr.path p)
  | Tok.str s => Except.ok (TExpr.strLit s)
  | Tok.num n => Except.ok (TExpr.intLit n)
  | _ => Except.error "unexpected token in argument list"

/-- Parse the argument tokens of a function call. -/
def parseArgs : List Tok → Except String (List TExpr)
  | [] => Except.ok []
  | t :: rest =>
    match parseArg t, parseArgs rest with
    | Except.ok e, Except.ok es => Except.ok (e :: es)
    | Except.error err, _ => Except.error err
    | _, Except.error err => Except.error err

/-- Parse one pipeline command from its tokens; the empty group models
Go's `missing value for command` parse error (e.g. a trailing pipe). -/
def parseCmd : List Tok → Except String TCmd
  | [] => Except.error "missing value for command"
  | [Tok.path p] => Except.ok (TCmd.expr (TExpr.path p))
  | [Tok.str s] => Except.ok (TCmd.expr (TExpr.strLit s))
  | [Tok.num n] => Except.ok (TCmd.expr (TExpr.intLit n))
  | Tok.ident f :: args =>
    if registryNames.contains f then (parseArgs args).map (fun es => TCmd.call f es)
    else Except.error ("function " ++ f ++ " not defined")
  | _ => Except.error "unexpected token in command"

/-- Parse every command of a pipeline. -/
def parseCmds : List (List Tok) → Except String (List TCmd)
  | [] => Except.ok []
  | g :: rest =>
    match parseCmd g, parseCmds rest with
    | Except.ok c, Except.ok cs => Except.ok (c :: cs)
    | Except.error err, _ => Except.error err
    | _, Except.error err => Except.error err

/-- Parse one action's source into a pipeline. -/
def parseAction (cs : List Char) : Except String (List TCmd) :=
  match tokenizeAction (cs.length + 1) cs with
  | Except.error e => Except.error e
  | Except.ok toks => parseCmds (splitPipes toks)

/-- Parse a whole template source into nodes. -/
def parseNodes : Nat → List Char → Except String (List TNode)
  | 0, _ => Except.error "template too long"
  | fuel + 1, cs =>
    match splitText cs with
    | (txt, none) =>
      Except.ok (if txt = [] then [] else [TNode.text (String.mk txt)])
    | (txt, some rest) =>
      match splitAction rest with
      | none => Except.error "unclosed action"
      | some (act, rest2) =>
        match parseAction act, parseNodes fuel rest2 with
        | Except.ok p, Except.ok tail =>
          Except.ok ((if txt = [] then [] else [TNode.text (String.mk txt)]) ++
            TNode.action p :: tail)
        | Except.error e, _ => Except.error e
        | _, Except.error e => Except.error e

/-- `template.New(...).Parse(templateStr)`: compile a template source. -/
def goParse (s : String) : Except String (List TNode) :=
  parseNodes (s.data.length + 1) s.data

/-- Render a pipeline value as text (Go's `fmt` default formatting for
the value kinds of the model). -/
def writeValue : TValue → String
  | TValue.str s => s
  | TValue.int n => toString n
  | TValue.strs xs => "[" ++ joinWith " " xs ++ "]"
  | TValue.time t => toString t

/-- Reflective field access on a breach value (`.Breach.<field>`);
unknown fields for the runtime variant are execution errors. -/
def breachField (b : Breach) (f : String) : Except String TValue :=
  match b with
  | Breach.value vb =>
    if f = "Value" then Except.ok (TValue.str vb.value)
    else if f = "ValueLabel" then Except.ok (TValue.str vb.valueLabel)
    else if f = "CheckName" then Except.ok (TValue.str vb.checkName)
    else if f = "CheckType" then Except.ok (TValue.str vb.checkType)
    else if f = "Severity" then Except.ok (TValue.str vb.severity)
    else Except.error ("can't evaluate field " ++ f ++ " in type ValueBreach")
  | Breach.keyValue kvb =>
    if f = "Value" then Except.ok (TValue.str kvb.value)
    else if f = "ValueLabel" then Except.ok (TValue.str kvb.valueLabel)
    else if f = "Key" then Except.ok (TValue.str kvb.key)
    else if f = "KeyLabel" then Except.ok (TValue.str kvb.keyLabel)
    else if f = "ExpectedValue" then Except.ok (TValue.str kvb.expectedValue)
    else if f = "CheckName" then Except.ok (TValue.str kvb.checkName)
    else if f = "CheckType" then Except.ok (TValue.str kvb.checkType)
    else if f = "Severity" then Except.ok (TValue.str kvb.severity)
    else Except.error ("can't evaluate field " ++ f ++ " in type KeyValueBreach")
  | Breach.keyValues kvb =>
    if f = "Values" then Except.ok (TValue.strs kvb.values)
    else if f = "ValueLabel" then Except.ok (TValue.str kvb.valueLabel)
    else if f = "Key" then Except.ok (TValue.str kvb.key)
    else if f = "KeyLabel" then Except.ok (TValue.str kvb.keyLabel)
    else if f = "CheckName" then Except.ok (TValue.str kvb.checkName)
    else if f = "CheckType" then Except.ok (TValue.str kvb.checkType)
    else if f = "Severity" then Except.ok (TValue.str kvb.severity)
    else Except.error ("can't evaluate field " ++ f ++ " in type KeyValuesBreach")

/-- Resolve a field path against the template context. -/
def resolvePath (ctx : TemplateContext) : List String → Except String TValue
  | ["OutputFormat"] => Except.ok (TValue.str ctx.outputFormat)
  | ["Severity"] => Except.ok (TValue.str ctx.severity)
  | ["CheckName"] => Except.ok (TValue.str ctx.checkName)
  | ["CheckType"] => Except.ok (TValue.str ctx.checkType)
  | ["Breach", f] => breachField ctx.breach f
  | p => Except.error ("can't evaluate field path ." ++ joinWith "." p)

/-- Evaluate an argument expression. -/
def execExpr (ctx : TemplateContext) : TExpr → Except String TValue
  | TExpr.strLit s => Except.ok (TValue.str s)
  | TExpr.intLit n => Except.ok (TValue.int n)
  | TExpr.path p => resolvePath ctx p

/-- Apply a registered function that does not read the clock
(`TemplateFuncs` entries of `breachtemplate.go`); a recovered Go panic
(e.g. `truncate` with a negative length) is an execution error. -/
def applyPureFn (fn : String) (args : List TValue) : Except String TValue :=
  if fn = "upper" then
    match args with
    | [TValue.str s] => Except.ok (TValue.str (goUpper s))
    | _ => Except.error "wrong type of arg for upper"
  else if fn = "lower" then
    match args with
    | [TValue.str s] => Except.ok (TValue.str (goLower s))
    | _ => Except.error "wrong type of arg for lower"
  else if fn = "truncate" then
    match args with
    | [TValue.int n, TValue.str s] =>
      match truncate n s with
      | some r => Except.ok (TValue.str r)
      | none =>
        Except.error "error calling truncate: runtime error: slice bounds out of range"
    | _ => Except.error "wrong type of arg for truncate"
  else if fn = "ellipsis" then
    match args with
    | [TValue.int n, TValue.str s] =>
      match ellipsis n s with
      | some r => Except.ok (TValue.str r)
      | none =>
        Except.error "error calling ellipsis: runtime error: slice bounds out of range"
    | _ => Except.error "wrong type of arg for ellipsis"
  else if fn = "div" then
    match args with
    | [TValue.int a, TValue.int b] => Except.ok (TValue.int (goDiv a b))
    | _ => Except.error "wrong type of arg for div"
  else if fn = "mod" then
    match args with
    | [TValue.int a, TValue.int b] => Except.ok (TValue.int (goMod a b))
    | _ => Except.error "wrong type of arg for mod"
  else if fn = "humanize" then
    match args with
    | [TValue.int n] => Except.ok (TValue.str (humanizeNumber n))
    | [TValue.str s] => Except.ok (TValue.str (humanizeString s))
    | _ => Except.error "wrong type of arg for humanize"
  else if fn = "pluralize" then
    match args with
    | [TValue.int n, TValue.str sg, TValue.str pl] =>
      Except.ok (TValue.str (pluralize n sg pl))
    | _ => Except.error "wrong type of arg for pluralize"
  else if fn = "date" then
    match args with
    | [TValue.str _, TValue.time t] => Except.ok (TValue.str (toString t))
    | _ => Except.error "wrong type of arg for date"
  else Except.error ("function " ++ fn ++ " not defined")

/-- Apply a registered function; only `now` reads the ambient clock. -/
def applyFn (time : Nat) (fn : String) (args : List TValue) : Except String TValue :=
  if fn = "now" then
    match args with
    | [] => Except.ok (TValue.time time)
    | _ => Except.error "wrong number of args for now"
  else applyPureFn fn args

/-- Evaluate the argument expressions of a call, left to right, first
error wins. -/
def execArgs (ctx : TemplateContext) : List TExpr → Except String (List TValue)
  | [] => Except.ok []
  | e :: rest =>
    match execExpr ctx e, execArgs ctx rest with
    | Except.ok v, Except.ok vs => Except.ok (v :: vs)
    | Except.error err, _ => Except.error err
    | _, Except.error err => Except.error err

/-- Evaluate one pipeline command; a piped value becomes the final
argument of a call, and piping into a non-function is an execution
error. -/
def execCmd (time : Nat) (ctx : TemplateContext) (piped : Option TValue) :
    TCmd → Except String TValue
  | TCmd.expr e =>
    match piped with
    | none => execExpr ctx e
    | some _ => Except.error "can't give argument to non-function"
  | TCmd.call fn args =>
    match execArgs ctx args with
    | Except.error err => Except.error err
    | Except.ok vs => applyFn time fn (vs ++ piped.toList)

/-- Evaluate a pipeline left to right, threading the piped value. -/
def execPipeline (time : Nat) (ctx : TemplateContext) :
    Option TValue → List TCmd → Except String TValue
  | some v, [] => Except.ok v
  | none, [] => Except.error "missing value for command"
  | piped, c :: rest =>
    match execCmd time ctx piped c with
    | Except.error err => Except.error err
    | Except.ok v => execPipeline time ctx (some v) rest

/-- Evaluate one node. -/
def execNode (time : Nat) (ctx : TemplateContext) : TNode → Except String String
  | TNode.text s => Except.ok s
  | TNode.action cmds => (execPipeline time ctx none cmds).map writeValue

/-- `templ.Execute(buf, ctx)`: evaluate all nodes; the first execution
failure aborts the render. -/
def execTemplate (time : Nat) (ctx : TemplateContext) : List TNode → Except String String
  | [] => Except.ok ""
  | n :: rest =>
    match execNode time ctx n, execTemplate time ctx rest with
    | Except.ok s, Except.ok t => Except.ok (s ++ t)
    | Except.error e, _ => Except.error e
    | _, Except.error e => Except.error e

/-- The synthetic `ValueBreach` reporting a template failure
(`breachtemplate.go` lines 528-531 and 538-541): only the failure label
and the error text are set. -/
def syntheticBreach (label msg : String) : Breach :=
  Breach.value { checkType := "", checkName := "", severity := "",
                 valueLabel := label, value := msg }

/-- `EvaluateTemplateStringWithContext` (lines 524-545): returns the
rendered string together with the breaches passed to `bt.AddBreach`
during the call.  A compile failure or an execution failure appends one
synthetic breach and returns the original source string. -/
def EvaluateTemplateStringWithContext (time : Nat) (templateStr : String)
    (ctx : TemplateContext) : String × List Breach :=
  match goParse templateStr with
  | Except.error e => (templateStr, [syntheticBreach "unable to parse breach template" e])
  | Except.ok nodes =>
    match execTemplate time ctx nodes with
    | Except.error e =>
      (templateStr, [syntheticBreach "unable to render breach template" e])
    | Except.ok out => (out, [])

/-! ## Breach renderer orchestration (`EvaluateTemplateWithContext`,
`breachtemplate.go` lines 20-153) -/

/-- The observable outcome of one `EvaluateTemplateWithContext` call:
the breaches passed to `bt.AddBreach`, in call order, and the state of
the caller's breach value after the call (the Go code holds the breach
through a pointer, so in-place field assignments are visible to the
caller; `inputAfter` makes that mutation explicit). -/
structure RenderResult where
  added : List Breach
  inputAfter : Breach
deriving DecidableEq

/-- Template-string resolution (lines 41-52): with a non-empty
`Templates` map, the format-specific entry wins, then the `"default"`
entry; only with an empty `Templates` map is the single `Template`
consulted. -/
def resolveTemplateStr (t : BreachTemplate) (outputFormat : String) : String :=
  if t.templates ≠ [] then
    match t.templates.lookup outputFormat with
    | some s => s
    | none =>
      match t.templates.lookup "default" with
      | some s => s
      | none => ""
  else if t.template ≠ "" then t.template
  else ""

/-- Construction of the `TemplateContext` (lines 32-39). -/
def buildContext (t : BreachTemplate) (b : Breach) (outputFormat : String) :
    TemplateContext :=
  { breach := b, outputFormat := outputFormat, severity := b.getSeverity,
    checkName := b.getCheckName, checkType := b.getCheckType,
    context := t.context }

/-- The enhanced path (lines 55-103): the resolved template string is
evaluated once and a new breach of the same variant is constructed
around the rendered value.  The `ValueBreach` construction omits
`ValueLabel`, the `KeyValueBreach` construction omits `ExpectedValue`,
and the `KeyValuesBreach` construction replaces the values by the
one-element list holding the rendered string. -/
def renderEnhanced (time : Nat) (t : BreachTemplate) (b : Breach)
    (outputFormat : String) (templateStr : String) : RenderResult :=
  let res := EvaluateTemplateStringWithContext time templateStr (buildContext t b outputFormat)
  match b with
  | Breach.value vb =>
    { added := res.2 ++ [Breach.value
        { checkType := vb.checkType, checkName := vb.checkName,
          severity := vb.severity, valueLabel := "", value := res.1 }],
      inputAfter := b }
  | Breach.keyValue kvb =>
    { added := res.2 ++ [Breach.keyValue
        { checkType := kvb.checkType, checkName := kvb.checkName,
          severity := kvb.severity, keyLabel := kvb.keyLabel, key := kvb.key,
          valueLabel := kvb.valueLabel, value := res.1, expectedValue := "" }],
      inputAfter := b }
  | Breach.keyValues kvb =>
    { added := res.2 ++ [Breach.keyValues
        { checkType := kvb.checkType, checkName := kvb.checkName,
          severity := kvb.severity, keyLabel := kvb.keyLabel, key := kvb.key,
          valueLabel := kvb.valueLabel, values := [res.1] }],
      inputAfter := b }

/-- The legacy per-field path (lines 105-153): each non-empty legacy
field source is evaluated (in the order KeyLabel, Key, ValueLabel,
Value), fields with empty sources keep the breach's original values,
and the results are assigned back into the fields of the original
breach, which is then emitted itself. -/
def renderLegacy (time : Nat) (t : BreachTemplate) (b : Breach)
    (outputFormat : String) : RenderResult :=
  let ctx := buildContext t b outputFormat
  let klR := if t.keyLabel ≠ "" then EvaluateTemplateStringWithContext time t.keyLabel ctx
    else (BreachGetKeyLabel b, [])
  let kR := if t.key ≠ "" then EvaluateTemplateStringWithContext time t.key ctx
    else (BreachGetKey b, [])
  let vlR := if t.valueLabel ≠ "" then EvaluateTemplateStringWithContext time t.valueLabel ctx
    else (BreachGetValueLabel b, [])
  let vR := if t.value ≠ "" then EvaluateTemplateStringWithContext time t.value ctx
    else (BreachGetValue b, [])
  let errs := klR.2 ++ kR.2 ++ vlR.2 ++ vR.2
  match b with
  | Breach.value vb =>
    let mutated := Breach.value { vb with valueLabel := vlR.1, value := vR.1 }
    { added := errs ++ [mutated], inputAfter := mutated }
  | Breach.keyValue kvb =>
    let mutated := Breach.keyValue
      { kvb with keyLabel := klR.1, key := kR.1, valueLabel := vlR.1, value := vR.1 }
    { added := errs ++ [mutated], inputAfter := mutated }
  | Breach.keyValues kvb =>
    let mutated := Breach.keyValues
      { kvb with keyLabel := klR.1, key := kR.1, valueLabel := vlR.1 }
    { added := errs ++ [mutated], inputAfter := mutated }

/-- `EvaluateTemplateWithContext` (lines 20-153).  The raw-passthrough
check (line 24) inspects only `Type`, `Template` and `Templates`; when
none is set the original breach is emitted unchanged.  Otherwise the
enhanced path runs when a template string resolves, and the legacy
per-field path runs when none does. -/
def EvaluateTemplateWithContext (time : Nat) (t : BreachTemplate) (b : Breach)
    (outputFormat : String) : RenderResult :=
  if t.type_ = "" ∧ t.template = "" ∧ t.templates = [] then
    { added := [b], inputAfter := b }
  else
    let templateStr := resolveTemplateStr t outputFormat
    if templateStr ≠ "" then renderEnhanced time t b outputFormat templateStr
    else renderLegacy time t b outputFormat

/-- `EvaluateTemplate` (lines 16-18): the `"pretty"` format shorthand. -/
def EvaluateTemplate (time : Nat) (t : BreachTemplate) (b : Breach) : RenderResult :=
  EvaluateTemplateWithContext time t b "pretty"

/-! ## Time dependence of templates -/

/-- Whether a pipeline command calls one of the two time-dependent
functions (`now`, `date`). -/
def cmdUsesTime : TCmd → Bool
  | TCmd.expr _ => false
  | TCmd.call fn _ => fn == "now" || fn == "date"

/-- Whether a node involves a time-dependent function. -/
def nodeUsesTime : TNode → Bool
  | TNode.text _ => false
  | TNode.action cmds => cmds.any cmdUsesTime

/-- Whether a template source string uses `now` or `date`; an
unparsable source trivially does not. -/
def sourceUsesTime (s : String) : Bool :=
  match goParse s with
  | Except.ok nodes => nodes.any nodeUsesTime
  | Except.error _ => false

lemma applyFn_time_indep (t1 t2 : Nat) (fn : String) (args : List TValue)
    (h : fn ≠ "now") : applyFn t1 fn args = applyFn t2 fn args := by
  simp [applyFn, h]

lemma execCmd_time_indep (t1 t2 : Nat) (ctx : TemplateContext)
    (piped : Option TValue) (c : TCmd) (h : cmdUsesTime c = false) :
    execCmd t1 ctx piped c = execCmd t2 ctx piped c := by
  cases c with
  | expr e => rfl
  | call fn args =>
    have hfn : fn ≠ "now" := by
      simp [cmdUsesTime] at h
      exact h.1
    cases hE : execArgs ctx args with
    | error e => simp [execCmd, hE]
    | ok vs => simp [execCmd, hE, applyFn_time_indep t1 t2 fn _ hfn]

lemma execPipeline_time_indep (t1 t2 : Nat) (ctx : TemplateContext)
    (cmds : List TCmd) (h : cmds.any cmdUsesTime = false) :
    ∀ piped, execPipeline t1 ctx piped cmds = execPipeline t2 ctx piped cmds := by
  induction cmds with
  | nil => intro piped; cases piped <;> rfl
  | cons c rest ih =>
    intro piped
    simp only [List.any_cons, Bool.or_eq_false_iff] at h
    have hc := execCmd_time_indep t1 t2 ctx piped c h.1
    simp only [execPipeline, hc]
    cases execCmd t2 ctx piped c with
    | error e => rfl
    | ok v => exact ih h.2 (some v)

lemma execNode_time_indep (t1 t2 : Nat) (ctx : TemplateContext) (n : TNode)
    (h : nodeUsesTime n = false) : execNode t1 ctx n = execNode t2 ctx n := by
  cases n with
  | text s => rfl
  | action cmds =>
    simp only [nodeUsesTime] at h
    simp only [execNode, execPipeline_time_indep t1 t2 ctx cmds h none]

lemma execTemplate_time_indep (t1 t2 : Nat) (ctx : TemplateContext)
    (nodes : List TNode) (h : nodes.any nodeUsesTime = false) :
    execTemplate t1 ctx nodes = execTemplate t2 ctx nodes := by
  induction nodes with
  | nil => rfl
  | cons n rest ih =>
    simp only [List.any_cons, Bool.or_eq_false_iff] at h
    simp only [execTemplate, execNode_time_indep t1 t2 ctx n h.1, ih h.2]

/-! ## Shared helper lemma and concrete fixtures -/

lemma not_raw_of_resolve_ne (t : BreachTemplate) (of : String)
    (h : resolveTemplateStr t of ≠ "") :
    ¬(t.type_ = "" ∧ t.template = "" ∧ t.templates = []) := by
  intro hc
  apply h
  simp [resolveTemplateStr, hc.2.1, hc.2.2]

/-- Template source piping the breach value through `upper`. -/
def srcUpperValue : String := "\x7b\x7b .Breach.Value | upper \x7d\x7d"

/-- Malformed template source (trailing pipe). -/
def srcMalformed : String := "\x7b\x7b .Breach.Value | \x7d\x7d"

/-- A `ValueBreach` carrying the value `fail b`. -/
def vbFailB : ValueBreach := { value := "fail b" }

/-- The breach wrapping `vbFailB`. -/
def bFailB : Breach := Breach.value vbFailB

/-- A `ValueBreach` breach carrying the value `orig`. -/
def bOrig : Breach := Breach.value { value := "orig" }

/-- A configuration with only the enhanced `Template` field set. -/
def tTpl : BreachTemplate := { template := "T" }

/-! ## Claims -/

/-- C3: for every template source string and context, evaluation never
raises a hard fault: either no breach is appended, or exactly one
synthetic `ValueBreach` is appended whose label identifies the failure
class (parse vs render) and whose value is the error text, and the
original unrendered source string is returned as the result. -/
theorem c3_graceful_failure (time : Nat) (src : String) (ctx : TemplateContext) :
    (EvaluateTemplateStringWithContext time src ctx).2 = [] ∨
    ∃ lbl msg,
      (lbl = "unable to parse breach template" ∨
       lbl = "unable to render breach template") ∧
      EvaluateTemplateStringWithContext time src ctx = (src, [syntheticBreach lbl msg]) := by
  cases hP : goParse src with
  | error e =>
    refine Or.inr ⟨"unable to parse breach template", e, Or.inl rfl, ?_⟩
    simp [EvaluateTemplateStringWithContext, hP]
  | ok nodes =>
    cases hE : execTemplate time ctx nodes with
    | error e =>
      refine Or.inr ⟨"unable to render breach template", e, Or.inr rfl, ?_⟩
      simp [EvaluateTemplateStringWithContext, hP, hE]
    | ok out =>
      exact Or.inl (by simp [EvaluateTemplateStringWithContext, hP, hE])

/-- C10: every synthetic breach appended for a template failure carries
only the failure label and the error text; its check name, check type
and severity are empty, never inherited from the rendered breach. -/
theorem c10_synthetic_metadata_empty (time : Nat) (src : String)
    (ctx : TemplateContext) (b : Breach)
    (hb : b ∈ (EvaluateTemplateStringWithContext time src ctx).2) :
    b.getCheckName = "" ∧ b.getCheckType = "" ∧ b.getSeverity = "" ∧
    ∃ msg, b = syntheticBreach "unable to parse breach template" msg ∨
      b = syntheticBreach "unable to render breach template" msg := by
  cases hP : goParse src with
  | error e =>
    have h2 : (EvaluateTemplateStringWithContext time src ctx).2 =
        [syntheticBreach "unable to parse breach template" e] := by
      simp [EvaluateTemplateStringWithContext, hP]
    rw [h2] at hb
    have hbe := List.mem_singleton.mp hb
    subst hbe
    exact ⟨rfl, rfl, rfl, e, Or.inl rfl⟩
  | ok nodes =>
    cases hE : execTemplate time ctx nodes with
    | error e =>
      have h2 : (EvaluateTemplateStringWithContext time src ctx).2 =
          [syntheticBreach "unable to render breach template" e] := by
        simp [EvaluateTemplateStringWithContext, hP, hE]
      rw [h2] at hb
      have hbe := List.mem_singleton.mp hb
      subst hbe
      exact ⟨rfl, rfl, rfl, e, Or.inr rfl⟩
    | ok out =>
      have h2 : (EvaluateTemplateStringWithContext time src ctx).2 = [] := by
        simp [EvaluateTemplateStringWithContext, hP, hE]
      rw [h2] at hb
      exact absurd hb (List.not_mem_nil b)

/-- Witness for C10 at the malformed source: the appended parse-failure
breach carries empty metadata. -/
theorem c10_witness :
    syntheticBreach "unable to parse breach template" "missing value for command" ∈
      (EvaluateTemplateStringWithContext 0 srcMalformed { breach := bFailB }).2 ∧
    ((syntheticBreach "unable to parse breach template"
        "missing value for command").getCheckName = "" ∧
      (syntheticBreach "unable to parse breach template"
        "missing value for command").getCheckType = "" ∧
      (syntheticBreach "unable to parse breach template"
        "missing value for command").getSeverity = "" ∧
      ∃ msg, syntheticBreach "unable to parse breach template"
          "missing value for command" =
          syntheticBreach "unable to parse breach template" msg ∨
        syntheticBreach "unable to parse breach template"
          "missing value for command" =
          syntheticBreach "unable to render breach template" msg) :=
  ⟨by decide,
   c10_synthetic_metadata_empty 0 srcMalformed { breach := bFailB } _ (by decide)⟩

/-- C7: evaluation of a template source that uses neither `now` nor
`date` does not depend on the ambient clock: two evaluations of the same
(source, context) pair return identical strings and identical appended
synthetic breaches. -/
theorem c7_determinism (t1 t2 : Nat) (src : String) (ctx : TemplateContext)
    (h : sourceUsesTime src = false) :
    EvaluateTemplateStringWithContext t1 src ctx =
      EvaluateTemplateStringWithContext t2 src ctx := by
  cases hP : goParse src with
  | error e => simp [EvaluateTemplateStringWithContext, hP]
  | ok nodes =>
    have hN : nodes.any nodeUsesTime = false := by
      simpa [sourceUsesTime, hP] using h
    simp [EvaluateTemplateStringWithContext, hP,
      execTemplate_time_indep t1 t2 ctx nodes hN]

/-- Witness for C7 at the `upper` template. -/
theorem c7_witness :
    sourceUsesTime srcUpperValue = false ∧
    EvaluateTemplateStringWithContext 0 srcUpperValue { breach := bFailB } =
      EvaluateTemplateStringWithContext 1 srcUpperValue { breach := bFailB } :=
  ⟨by decide, c7_determinism 0 1 srcUpperValue { breach := bFailB } (by decide)⟩

/-- C6 (code bug): the function library is not total.  `truncate` with a
negative length slices `s[:length]` and panics (`none`), as does
`ellipsis`, although the guarded `div`/`mod` do degrade to 0; the repo's
own edge-case test expects `truncate -5 "hello world"` to render without
any error breach. -/
theorem c6_truncate_not_total :
    truncate (-5) "hello world" = none ∧ ellipsis (-1) "abc" = none ∧
    truncate 0 "hello world" = some "" ∧ truncate 1 "hello world" = some "h" ∧
    truncate 10 "This is a very long string" = some "This is..." ∧
    goDiv 10 0 = 0 ∧ goMod 10 0 = 0 := by decide

/-- C8 (code bug): the documented positive thresholds of `humanize` hold
(999, 1000, 1500 and the string form), but the `n < 1000` early return
captures every negative number, so `humanizeNumber (-1500)` is "-1500"
although the threshold rule (and the repo's own helper test, which
expects "-1.5K") calls for a suffixed rendering. -/
theorem c8_humanize_eval :
    humanizeNumber 999 = "999" ∧ humanizeNumber 1000 = "1K" ∧
    humanizeNumber 1500 = "1.5K" ∧ humanizeNumber 1000000 = "1M" ∧
    humanizeNumber (-1500) = "-1500" ∧
    humanizeString "mixed_case-string" = "Mixed Case String" := by decide

/-- The C1 configuration: only the legacy `Value` field is set; the
`Type` discriminator is absent. -/
def tValueOnly : BreachTemplate := { value := srcUpperValue }

/-- C1 counterexample: with only the legacy `Value` template set and the
`Type` discriminator absent, the raw-passthrough check fires and the
breach is emitted unchanged — its value stays `fail b`, not the
evaluation `FAIL B` of the `Value` template. -/
theorem c1_counterexample :
    (EvaluateTemplateWithContext 0 tValueOnly bFailB "pretty").added = [bFailB] ∧
    (EvaluateTemplateWithContext 0 tValueOnly bFailB "pretty").inputAfter = bFailB ∧
    (EvaluateTemplateStringWithContext 0 srcUpperValue
        (buildContext tValueOnly bFailB "pretty")).1 = "FAIL B" ∧
    BreachGetValue bFailB ≠ "FAIL B" := by decide

/-- C1 amended: when the `Type` discriminator is additionally set (and
the enhanced fields stay empty), the legacy per-field path does apply:
the emitted breach carries the evaluation of the `Value` template source
against the context, with all other fields unchanged. -/
theorem c1_legacy_value_needs_type (time : Nat) (vb : ValueBreach)
    (src of : String) (h : src ≠ "") :
    EvaluateTemplateWithContext time { type_ := BreachTypeValue, value := src }
        (Breach.value vb) of =
      (let res := EvaluateTemplateStringWithContext time src
        (buildContext { type_ := BreachTypeValue, value := src } (Breach.value vb) of)
       { added := res.2 ++ [Breach.value { vb with value := res.1 }],
         inputAfter := Breach.value { vb with value := res.1 } }) := by
  simp [EvaluateTemplateWithContext, resolveTemplateStr, renderLegacy,
    BreachTypeValue, BreachGetKeyLabel, BreachGetKey, BreachGetValueLabel,
    BreachGetValue, h]

/-- Witness for the amended C1 at the spec's example: `Value` template
`.Breach.Value | upper` over `fail b` yields `FAIL B`, other fields
unchanged. -/
theorem c1_witness :
    srcUpperValue ≠ "" ∧
    EvaluateTemplateWithContext 0
        { type_ := BreachTypeValue, value := srcUpperValue } bFailB "pretty" =
      { added := [Breach.value { value := "FAIL B" }],
        inputAfter := Breach.value { value := "FAIL B" } } :=
  ⟨by decide, c1_legacy_value_needs_type 0 vbFailB srcUpperValue "pretty" (by decide)⟩

/-- The C2 configuration: a non-empty `Templates` map without a
`"pretty"` or `"default"` entry, next to a non-empty `Template`. -/
def tTemplates : BreachTemplate := { templates := [("json", "A")], template := "B" }

/-- C2 counterexample: with `Templates` non-empty but matching neither
the output format nor `"default"`, rendering does NOT use `Template`:
the legacy path runs and the breach keeps its original value `orig`,
not the evaluation `B` of `Template`. -/
theorem c2_counterexample :
    (EvaluateTemplateWithContext 0 tTemplates bOrig "pretty").added = [bOrig] ∧
    (EvaluateTemplateStringWithContext 0 "B"
        (buildContext tTemplates bOrig "pretty")).1 = "B" ∧
    BreachGetValue bOrig ≠ "B" := by decide

/-- C2 amended: when `Templates` is non-empty and contains neither the
output-format key nor a `"default"` key, resolution yields no enhanced
template at all — `Template` is ignored (the result is the same as if it
were empty) and rendering falls through to the legacy per-field path. -/
theorem c2_templates_shadow_template (time : Nat) (t : BreachTemplate)
    (b : Breach) (of : String) (h1 : t.templates ≠ [])
    (h2 : t.templates.lookup of = none)
    (h3 : t.templates.lookup "default" = none) :
    resolveTemplateStr t of = "" ∧
    EvaluateTemplateWithContext time t b of =
      EvaluateTemplateWithContext time { t with template := "" } b of := by
  have hres : resolveTemplateStr t of = "" := by
    simp [resolveTemplateStr, h1, h2, h3]
  have hres2 : resolveTemplateStr { t with template := "" } of = "" := by
    simp [resolveTemplateStr, h1, h2, h3]
  refine ⟨hres, ?_⟩
  have hne : (t.templates = []) = False := by simp [h1]
  simp only [EvaluateTemplateWithContext, hres, hres2, hne, and_false,
    if_false, ne_eq, not_true_eq_false]
  rfl

/-- Witness for the amended C2 at the concrete configuration. -/
theorem c2_witness :
    tTemplates.templates ≠ [] ∧
    tTemplates.templates.lookup "pretty" = none ∧
    tTemplates.templates.lookup "default" = none ∧
    (resolveTemplateStr tTemplates "pretty" = "" ∧
     EvaluateTemplateWithContext 0 tTemplates bOrig "pretty" =
       EvaluateTemplateWithContext 0 { tTemplates with template := "" } bOrig "pretty") :=
  ⟨by decide, by decide, by decide,
   c2_templates_shadow_template 0 tTemplates bOrig "pretty"
     (by decide) (by decide) (by decide)⟩

/-- The C4 configuration: a legacy template with `Type` set and a
constant `Value` source. -/
def tLegacyX : BreachTemplate := { type_ := BreachTypeValue, value := "X" }

/-- C4 counterexample: the legacy per-field path mutates the analyser's
breach in place — after rendering, the caller's breach value has been
overwritten with the rendered text. -/
theorem c4_counterexample :
    (EvaluateTemplateWithContext 0 tLegacyX bOrig "pretty").inputAfter ≠ bOrig ∧
    (EvaluateTemplateWithContext 0 tLegacyX bOrig "pretty").inputAfter =
      Breach.value { value := "X" } := by decide

/-- C4 amended: rendering through an enhanced template, or raw
passthrough, leaves the analyser's breach unchanged; only the legacy
per-field path mutates it in place. -/
theorem c4_no_mutation_outside_legacy (time : Nat) (t : BreachTemplate)
    (b : Breach) (of : String)
    (h : resolveTemplateStr t of ≠ "" ∨
      (t.type_ = "" ∧ t.template = "" ∧ t.templates = [])) :
    (EvaluateTemplateWithContext time t b of).inputAfter = b := by
  cases h with
  | inr hraw => simp [EvaluateTemplateWithContext, hraw]
  | inl hres =>
    simp only [EvaluateTemplateWithContext, if_neg (not_raw_of_resolve_ne t of hres),
      hres, ne_eq, not_false_eq_true, if_true]
    cases b <;> simp [renderEnhanced]

/-- Witness for the amended C4 at an enhanced configuration. -/
theorem c4_witness :
    (resolveTemplateStr tTpl "pretty" ≠ "" ∨
      (tTpl.type_ = "" ∧ tTpl.template = "" ∧ tTpl.templates = [])) ∧
    (EvaluateTemplateWithContext 0 tTpl bOrig "pretty").inputAfter = bOrig :=
  ⟨Or.inl (by decide),
   c4_no_mutation_outside_legacy 0 tTpl bOrig "pretty" (Or.inl (by decide))⟩

/-- C5: a `KeyValuesBreach` rendered through an enhanced template is
emitted as a `KeyValuesBreach` with the same key, key label, value label
and common metadata, and its values collapse to the one-element sequence
holding the rendered string, regardless of the input values. -/
theorem c5_keyvalues_collapse (time : Nat) (t : BreachTemplate)
    (kvb : KeyValuesBreach) (of : String) (h : resolveTemplateStr t of ≠ "") :
    EvaluateTemplateWithContext time t (Breach.keyValues kvb) of =
      (let res := EvaluateTemplateStringWithContext time (resolveTemplateStr t of)
        (buildContext t (Breach.keyValues kvb) of)
       { added := res.2 ++ [Breach.keyValues { kvb with values := [res.1] }],
         inputAfter := Breach.keyValues kvb }) := by
  simp only [EvaluateTemplateWithContext, if_neg (not_raw_of_resolve_ne t of h),
    h, ne_eq, not_false_eq_true, if_true]
  rfl

/-- A fully-populated `KeyValuesBreach` fixture with three values. -/
def kvsW : KeyValuesBreach :=
  { checkType := "ct", checkName := "cn", severity := "high", keyLabel := "kl",
    key := "k", valueLabel := "vl", values := ["a", "b", "c"] }

/-- Witness for C5: three input values collapse to `["T"]`, labels and
metadata preserved. -/
theorem c5_witness :
    resolveTemplateStr tTpl "pretty" ≠ "" ∧
    EvaluateTemplateWithContext 0 tTpl (Breach.keyValues kvsW) "pretty" =
      { added := [Breach.keyValues { kvsW with values := ["T"] }],
        inputAfter := Breach.keyValues kvsW } :=
  ⟨by decide, c5_keyvalues_collapse 0 tTpl kvsW "pretty" (by decide)⟩

/-- C9: a `ValueBreach` rendered through an enhanced template is emitted
with only the common metadata and the rendered value — its `ValueLabel`
is dropped (always empty in the output) — unlike the `KeyValueBreach`
enhanced path, which copies its labels (while dropping only
`ExpectedValue`). -/
theorem c9_valuelabel_dropped (time : Nat) (t : BreachTemplate) (of : String)
    (h : resolveTemplateStr t of ≠ "") :
    (∀ vb : ValueBreach,
      EvaluateTemplateWithContext time t (Breach.value vb) of =
        (let res := EvaluateTemplateStringWithContext time (resolveTemplateStr t of)
          (buildContext t (Breach.value vb) of)
         { added := res.2 ++
             [Breach.value
                { checkType := vb.checkType, checkName := vb.checkName,
                  severity := vb.severity, valueLabel := "", value := res.1 }],
           inputAfter := Breach.value vb })) ∧
    (∀ kvb : KeyValueBreach,
      EvaluateTemplateWithContext time t (Breach.keyValue kvb) of =
        (let res := EvaluateTemplateStringWithContext time (resolveTemplateStr t of)
          (buildContext t (Breach.keyValue kvb) of)
         { added := res.2 ++
             [Breach.keyValue
                { checkType := kvb.checkType, checkName := kvb.checkName,
                  severity := kvb.severity, keyLabel := kvb.keyLabel,
                  key := kvb.key, valueLabel := kvb.valueLabel,
                  value := res.1, expectedValue := "" }],
           inputAfter := Breach.keyValue kvb })) := by
  constructor
  · intro vb
    simp only [EvaluateTemplateWithContext, if_neg (not_raw_of_resolve_ne t of h),
      h, ne_eq, not_false_eq_true, if_true]
    rfl
  · intro kvb
    simp only [EvaluateTemplateWithContext, if_neg (not_raw_of_resolve_ne t of h),
      h, ne_eq, not_false_eq_true, if_true]
    rfl

/-- A `ValueBreach` fixture whose `ValueLabel` is non-empty. -/
def vbNote : ValueBreach := { value := "v", valueLabel := "note" }

/-- Witness for C9: the non-empty input `ValueLabel` (`note`) is dropped
from the enhanced output. -/
theorem c9_witness :
    resolveTemplateStr tTpl "pretty" ≠ "" ∧
    EvaluateTemplateWithContext 0 tTpl (Breach.value vbNote) "pretty" =
      { added := [Breach.value { value := "T", valueLabel := "" }],
        inputAfter := Breach.value vbNote } :=
  ⟨by decide, (c9_valuelabel_dropped 0 tTpl "pretty" (by decide)).1 vbNote⟩
